import Mathlib

/-!
Verification of the `wlan.recon` wireless recon/attack module
(`src/modules/wlan_recon.go`) against its natural-language specification.

The Go code is shallowly embedded: pure functions become Lean functions,
the packet-capture and injection side effects become explicit traces and
injection oracles, and the module's mutable fields become an explicit
state record threaded through the command handlers.  Machine integers are
modelled as `Nat`/`Int` (Go's `int` division truncates toward zero, which
is `Int.tdiv`).  Go byte-strings that are only compared lexicographically
are modelled as `List Nat`.
-/

namespace WlanRecon

/-- A 48-bit hardware address, as the list of its bytes
(`net.HardwareAddr` is a byte slice; an unset filter is the empty slice). -/
abbrev MAC := List Nat

/-- `BROADCAST_MAC` after `net.ParseMAC`: ff:ff:ff:ff:ff:ff as bytes. -/
def broadcastMacBytes : MAC := [255, 255, 255, 255, 255, 255]

/-! ## Channel mapper (`WlanMhzToChannel`, wlan_recon.go lines 166-172) -/

/-- `WlanMhzToChannel`: Go's `/` on `int` truncates toward zero (`Int.tdiv`). -/
def WlanMhzToChannel (freq : Int) : Int :=
  if freq ≤ 2484 then (Int.tdiv (freq - 2412) 5) + 1 else 0

/-! ## Deauthentication engine (`buildDeauthPkt`, `SendDeauthPacket`,
`SendDeauth`, wlan_recon.go lines 247-315)

The serialized radiotap/dot11/deauth byte buffer is abstracted to the
record of the fields the code writes into the layers; injection
(`pcap.Handle.WritePacketData`) becomes an oracle `inj : Frame → Bool`
telling which injections succeed, and the run is recorded as a trace of
injection attempts and sleeps. -/

/-- The only `layers.Dot11Type` value the engine sends. -/
inductive Dot11SendType
  | MgmtDeauthentication
deriving DecidableEq, Repr

/-- The only `layers.Dot11Reason` value the engine sends. -/
inductive Dot11SendReason
  | Class2FromNonAuth
deriving DecidableEq, Repr

/-- The deauthentication frame built by `buildDeauthPkt`: the three
802.11 addressing fields, type, reason code, and sequence number. -/
structure Frame where
  Address1 : MAC
  Address2 : MAC
  Address3 : MAC
  FrameType : Dot11SendType
  Reason : Dot11SendReason
  SequenceNumber : Nat
deriving DecidableEq, Repr

/-- `buildDeauthPkt(address1, address2, address3, _type, reason, seq)`. -/
def buildDeauthPkt (address1 address2 address3 : MAC)
    (t : Dot11SendType) (reason : Dot11SendReason) (seq : Nat) : Frame :=
  { Address1 := address1, Address2 := address2, Address3 := address3,
    FrameType := t, Reason := reason, SequenceNumber := seq }

/-- One observable step of `SendDeauthPacket`: an injection attempt
(with its success flag) or a `time.Sleep` of the given milliseconds. -/
inductive Event
  | inject (f : Frame) (ok : Bool)
  | sleepMs (n : Nat)
deriving DecidableEq, Repr

/-- The loop body of `SendDeauthPacket` from sequence number `seq`, with
`n` iterations remaining (the Go loop runs `seq = 0; seq < 64; seq++`;
on a failed `WritePacketData` it returns at once, before any sleep). -/
def sendDeauthFrom (inj : Frame → Bool) (ap client : MAC) : Nat → Nat → List Event
  | 0, _ => []
  | n + 1, seq =>
    let f1 := buildDeauthPkt ap client ap
      .MgmtDeauthentication .Class2FromNonAuth seq
    if inj f1 then
      Event.inject f1 true :: Event.sleepMs 2 ::
        (let f2 := buildDeauthPkt client ap ap
          .MgmtDeauthentication .Class2FromNonAuth seq
         if inj f2 then
           Event.inject f2 true :: Event.sleepMs 2 ::
             sendDeauthFrom inj ap client n (seq + 1)
         else [Event.inject f2 false])
    else [Event.inject f1 false]

/-- `SendDeauthPacket(ap, client)` under injection oracle `inj`:
the full event trace of the call. -/
def SendDeauthPacket (inj : Frame → Bool) (ap client : MAC) : List Event :=
  sendDeauthFrom inj ap client 64 0

/-- The injection attempts of a trace (successful or not). -/
def injections (tr : List Event) : List Frame :=
  tr.filterMap fun e => match e with
    | .inject f _ => some f
    | .sleepMs _ => none

/-- `SendDeauth()`: dispatch on the configured filters.  Returns the list
of `SendDeauthPacket(ap, client)` calls made, or the error.  The sweep
case iterates the target directory, modelled as the list of the entries'
hardware addresses (`t.Endpoint.HW`). -/
def SendDeauth (bsTarget clientTarget : MAC) (targets : List MAC) :
    Except String (List (MAC × MAC)) :=
  if bsTarget.length > 0 ∧ clientTarget.length > 0 then
    .ok [(bsTarget, clientTarget)]
  else if bsTarget.length > 0 then
    .ok (targets.map fun t => (bsTarget, t))
  else
    .error "Base station is not set."

/-! ## Frame classifier (`BSScan`, `ClientScan`, wlan_recon.go lines 317-390)

A captured `gopacket.Packet` is abstracted to the three optional layers
the classifiers probe (`packet.Layer(...)` returning `nil` becomes
`none`), keeping exactly the fields the code reads.  The directory update
`w.Targets.AddIfNew(...)` is abstracted to the call record the classifier
emits (`none` = frame silently dropped, directory unchanged). -/

/-- The main-type classification of `layers.Dot11Type` (`MainType()`). -/
inductive Dot11MainType
  | Mgmt
  | Ctrl
  | Data
  | Reserved
deriving DecidableEq, Repr

/-- The fields of `layers.RadioTap` the classifiers read. -/
structure RadioTap where
  ChannelFrequency : Nat
deriving DecidableEq, Repr

/-- Information-element IDs (`layers.Dot11InformationElementID`); the
SSID element has ID 0, all others are lumped together. -/
inductive Dot11InformationElementID
  | SSID
  | Other (n : Nat)
deriving DecidableEq, Repr

/-- The fields of `layers.Dot11InformationElement` the classifiers read. -/
structure Dot11InformationElement where
  ID : Dot11InformationElementID
  Info : String
deriving DecidableEq, Repr

/-- The fields of `layers.Dot11` the classifiers read (`Flags.ToDS()` and
`Flags.FromDS()` are the two direction bits of the flags byte). -/
structure Dot11 where
  Address1 : MAC
  Address2 : MAC
  Address3 : MAC
  MainType : Dot11MainType
  ToDS : Bool
  FromDS : Bool
deriving DecidableEq, Repr

/-- A captured frame, as the classifiers see it: each `packet.Layer(...)`
probe yields the layer or `nil`. -/
structure Packet where
  radioTap : Option RadioTap
  dot11info : Option Dot11InformationElement
  dot11 : Option Dot11
deriving DecidableEq, Repr

/-- The directory update a classifier emits: the arguments of the
`w.Targets.AddIfNew(ssid, mac, isBaseStation, channel)` call.  The
hardware address is kept as bytes (the code renders it with
`.String()` before the call). -/
structure AddIfNewCall where
  ssid : String
  mac : MAC
  isBaseStation : Bool
  channel : Int
deriving DecidableEq, Repr

/-- `BSScan(packet)`: base-station scan.  Returns the `AddIfNew` call the
code makes, or `none` when the frame is dropped. -/
def BSScan (broadcastMac : MAC) (packet : Packet) : Option AddIfNewCall :=
  match packet.radioTap with
  | none => none
  | some radiotap =>
    match packet.dot11info with
    | none => none
    | some dot11info =>
      if dot11info.ID ≠ .SSID then none
      else
        match packet.dot11 with
        | none => none
        | some dot11 =>
          let ssid := dot11info.Info
          let bssid := dot11.Address3
          let dst := dot11.Address1
          if dst = broadcastMac ∧ ssid.length > 0 then
            some { ssid := ssid, mac := bssid, isBaseStation := true,
                   channel := WlanMhzToChannel radiotap.ChannelFrequency }
          else none

/-- `ClientScan(bs, packet)`: client scan against the configured
base-station address `bs`. -/
def ClientScan (bs : MAC) (packet : Packet) : Option AddIfNewCall :=
  match packet.radioTap with
  | none => none
  | some radiotap =>
    match packet.dot11 with
    | none => none
    | some dot11 =>
      if dot11.MainType ≠ .Data then none
      else
        let toDS := dot11.ToDS
        let fromDS := dot11.FromDS
        if toDS ∧ ¬fromDS then
          let src := dot11.Address2
          let bssid := dot11.Address1
          if bssid = bs then
            some { ssid := "", mac := src, isBaseStation := false,
                   channel := WlanMhzToChannel radiotap.ChannelFrequency }
          else none
        else none

/-! ## MAC address grammar and parser

The command surface validates arguments with the regular expression
`MAC48Validator` (wlan_recon.go line 27) and then parses them with the Go
standard library's `net.ParseMAC`, embedded here from its documented
behaviour: colon- or dash-separated hex pairs (the separator fixed by the
third character), or dot-separated groups of four hex digits; on failure
it returns a nil address and an error. -/

/-- Value of one hex digit, `none` for a non-hex character. -/
def hexDigit (c : Char) : Option Nat :=
  if '0' ≤ c ∧ c ≤ '9' then some (c.toNat - '0'.toNat)
  else if 'a' ≤ c ∧ c ≤ 'f' then some (c.toNat - 'a'.toNat + 10)
  else if 'A' ≤ c ∧ c ≤ 'F' then some (c.toNat - 'A'.toNat + 10)
  else none

def isHexDigit (c : Char) : Bool := (hexDigit c).isSome

/-- A separator accepted by the `MAC48Validator` regular expression. -/
def isMacSep (c : Char) : Bool := c = ':' || c = '-'

/-- The `MAC48Validator` pattern `((?:[0-9A-Fa-f]{2}[:-]){5}(?:[0-9A-Fa-f]{2}))`:
six hex pairs, each of the five separators independently `:` or `-`. -/
def MAC48Matches (s : List Char) : Bool :=
  match s with
  | [a1, a2, s1, b1, b2, s2, c1, c2, s3, d1, d2, s4, e1, e2, s5, f1, f2] =>
    isHexDigit a1 && isHexDigit a2 && isMacSep s1 &&
    isHexDigit b1 && isHexDigit b2 && isMacSep s2 &&
    isHexDigit c1 && isHexDigit c2 && isMacSep s3 &&
    isHexDigit d1 && isHexDigit d2 && isMacSep s4 &&
    isHexDigit e1 && isHexDigit e2 && isMacSep s5 &&
    isHexDigit f1 && isHexDigit f2
  | _ => false

/-- Hex pairs separated by the single separator `sep` (`xtoi2` applied at
offsets 0, 3, 6, ...: every third character must equal `sep`). -/
def parsePairs (sep : Char) : List Char → Option (List Nat)
  | [a, b] => do pure [16 * (← hexDigit a) + (← hexDigit b)]
  | a :: b :: c :: rest =>
    if c = sep then do
      let v := 16 * (← hexDigit a) + (← hexDigit b)
      let vs ← parsePairs sep rest
      pure (v :: vs)
    else none
  | _ => none

/-- Groups of four hex digits separated by `.` (two bytes per group). -/
def parseQuads : List Char → Option (List Nat)
  | [a, b, c, d] => do
    pure [16 * (← hexDigit a) + (← hexDigit b),
          16 * (← hexDigit c) + (← hexDigit d)]
  | a :: b :: c :: d :: e :: rest =>
    if e = '.' then do
      let v1 := 16 * (← hexDigit a) + (← hexDigit b)
      let v2 := 16 * (← hexDigit c) + (← hexDigit d)
      let vs ← parseQuads rest
      pure (v1 :: v2 :: vs)
    else none
  | _ => none

/-- `net.ParseMAC` (Go standard library, modelled from its documented
behaviour): `none` models the `(nil, error)` return. -/
def ParseMAC (s : List Char) : Option (List Nat) :=
  if s.length < 14 then none
  else if s.get? 2 = some ':' ∨ s.get? 2 = some '-' then
    if (s.length + 1) % 3 ≠ 0 then none
    else
      let n := (s.length + 1) / 3
      if n ≠ 6 ∧ n ≠ 8 ∧ n ≠ 20 then none
      else parsePairs ((s.get? 2).getD ':') s
  else if s.get? 4 = some '.' then
    if (s.length + 1) % 5 ≠ 0 then none
    else
      let n := 2 * ((s.length + 1) / 5)
      if n ≠ 6 ∧ n ≠ 8 ∧ n ≠ 20 then none
      else parseQuads s
  else none

/-! ## Target directory (`WlanTargets`)

`wlan_targets.go` is not part of the given sources; the directory and its
operations are modelled from the specification (§4.2). -/

/-- A directory entry (`WlanEndpoint` as stored in the directory):
identity, SSID, channel, first/last-seen timestamps (modelled as `Nat`
instants), and the continuity ("missed") flag.  The hardware address is
the rendered string key used by `AddIfNew`. -/
structure Entry where
  Essid : String
  HwAddress : String
  IsBaseStation : Bool
  Channel : Int
  FirstSeen : Nat
  LastSeen : Nat
  Missed : Bool
deriving DecidableEq, Repr

/-- Modelled from the spec: `add_if_new(ssid, address, is_base_station,
channel)` of `WlanTargets` (not under src/).  Spec §4.2: if the address is
absent, create a new entry with first-seen = last-seen = now and the
continuity flag cleared; if present, update last-seen and channel only
(SSID and first-seen untouched). -/
def addIfNew (ssid addr : String) (isBaseStation : Bool) (channel : Int)
    (now : Nat) (d : List Entry) : List Entry :=
  if d.any (fun e => e.HwAddress = addr) then
    d.map fun e =>
      if e.HwAddress = addr then { e with LastSeen := now, Channel := channel }
      else e
  else
    d ++ [{ Essid := ssid, HwAddress := addr, IsBaseStation := isBaseStation,
            Channel := channel, FirstSeen := now, LastSeen := now,
            Missed := false }]

/-- Modelled from the spec: `clear_all()` of `WlanTargets` (not under
src/) removes every entry (§4.2). -/
def clearAll (_d : List Entry) : List Entry := []

/-- Hex character of a value below 16 (lowercase, as
`net.HardwareAddr.String` renders). -/
def hexChar (n : Nat) : Char :=
  if n < 10 then Char.ofNat (48 + n) else Char.ofNat (87 + n)

/-- One byte as two lowercase hex characters. -/
def byteHex (b : Nat) : List Char := [hexChar (b / 16 % 16), hexChar (b % 16)]

/-- `net.HardwareAddr.String()`: colon-separated lowercase hex pairs. -/
def macChars : MAC → List Char
  | [] => []
  | [b] => byteHex b
  | b :: rest => byteHex b ++ ':' :: macChars rest

def macString (m : MAC) : String := ⟨macChars m⟩

/-! ## Module state and command handlers (`NewWDiscovery`,
wlan_recon.go lines 40-108, `Configure`/`Start`/`Stop` lines 392-450)

The mutable fields of `WDiscovery` become an explicit state record.
`Targets` is `none` while the `*WlanTargets` pointer is nil (before the
first `Configure`).  The capture handle is left out: injection and
capture are modelled by oracles/traces above. -/

structure WDiscoveryState where
  Targets : Option (List Entry)
  ClientTarget : MAC
  BSTarget : MAC
  running : Bool
deriving DecidableEq, Repr

/-- The `wlan.recon set bs MAC` handler: clear the directory if it
exists, then `w.BSTarget, err = net.ParseMAC(args[0])` (on a parse error
`BSTarget` receives the nil result).  Second component: whether an error
was returned. -/
def setBSHandler (arg : List Char) (w : WDiscoveryState) :
    WDiscoveryState × Bool :=
  let targets := w.Targets.map clearAll
  match ParseMAC arg with
  | some mac => ({ w with Targets := targets, BSTarget := mac }, false)
  | none => ({ w with Targets := targets, BSTarget := [] }, true)

/-- The `wlan.recon clear bs` handler. -/
def clearBSHandler (w : WDiscoveryState) : WDiscoveryState :=
  { w with Targets := w.Targets.map clearAll, BSTarget := [] }

/-- The `wlan.recon set client MAC` handler (no directory clear). -/
def setClientHandler (arg : List Char) (w : WDiscoveryState) :
    WDiscoveryState × Bool :=
  match ParseMAC arg with
  | some mac => ({ w with ClientTarget := mac }, false)
  | none => ({ w with ClientTarget := [] }, true)

/-- The `wlan.recon clear client` handler. -/
def clearClientHandler (w : WDiscoveryState) : WDiscoveryState :=
  { w with ClientTarget := [] }

/-- One operation of the system, as enumerated by the spec's lifecycle
invariant: start/stop, classification of one captured frame (with the
capture instant), attack dispatch, report, and the four filter
commands. -/
inductive Op
  | start
  | stop
  | frame (p : Packet) (now : Nat)
  | deauth
  | showCmd
  | setClient (arg : List Char)
  | clearClient
  | setBS (arg : List Char)
  | clearBS
deriving Repr

/-- Apply one emitted `AddIfNew` call to a directory. -/
def applyCall (c : AddIfNewCall) (now : Nat) (d : List Entry) : List Entry :=
  addIfNew c.ssid (macString c.mac) c.isBaseStation c.channel now d

/-- One step of the system.  `start` mirrors `Start`/`Configure`:
refused while running; otherwise `Configure` replaces `w.Targets` with a
fresh directory (`NewWlanTargets`, modelled from the spec as empty:
entries are created only by classification) before activating capture.
`frame` mirrors the classify loop body; `deauth` and `showCmd` only read
the directory; the remaining cases are the handlers above. -/
def step (w : WDiscoveryState) (op : Op) : WDiscoveryState :=
  match op with
  | .start =>
    if w.running then w
    else { w with Targets := some [], running := true }
  | .stop => { w with running := false }
  | .frame p now =>
    if w.running then
      match w.Targets with
      | none => w
      | some d =>
        if w.BSTarget.length > 0 then
          match ClientScan w.BSTarget p with
          | some c => { w with Targets := some (applyCall c now d) }
          | none => w
        else
          match BSScan broadcastMacBytes p with
          | some c => { w with Targets := some (applyCall c now d) }
          | none => w
    else w
  | .deauth => w
  | .showCmd => w
  | .setClient arg => (setClientHandler arg w).1
  | .clearClient => clearClientHandler w
  | .setBS arg => (setBSHandler arg w).1
  | .clearBS => clearBSHandler w

/-- The two operations the spec designates as explicit filter-clear
operations (the bulk clear triggered by setting or clearing the
base-station filter). -/
def isFilterClear : Op → Bool
  | .setBS _ => true
  | .clearBS => true
  | _ => false

/-- An address is present in the state's directory. -/
def hasAddr (w : WDiscoveryState) (addr : String) : Prop :=
  ∃ d, w.Targets = some d ∧ (d.any fun e => e.HwAddress = addr) = true

instance (w : WDiscoveryState) (addr : String) : Decidable (hasAddr w addr) := by
  unfold hasAddr
  match h : w.Targets with
  | none => exact .isFalse (by simp [h])
  | some d => exact decidable_of_iff ((d.any fun e => e.HwAddress = addr) = true) (by simp [h])

/-! ## Report sorting (`ByEssidSorter`, `ByWlanSeenSorter`,
wlan_recon.go lines 174-191)

The sorters compare Go strings (`Essid`, `Endpoint.HwAddress`) with `<`,
which is byte-lexicographic; byte-strings are modelled as `List Nat`, and
`Endpoint.LastSeen` (`time.Time`, compared with `After`) as a `Nat`
instant.  Go's `sort.Sort` guarantees the result is a permutation of the
input ordered by the sorter's `Less`; it is modelled by insertion sort on
the non-strict complement of `Less`. -/

/-- Go's `<` on byte-strings (lexicographic). -/
def bytesLt : List Nat → List Nat → Bool
  | _, [] => false
  | [], _ :: _ => true
  | x :: xs, y :: ys => if x < y then true else if y < x then false else bytesLt xs ys

/-- Fields of `network.Endpoint` read by the sorters. -/
structure SortEndpoint where
  HwAddress : List Nat
  LastSeen : Nat
deriving DecidableEq, Repr

/-- Fields of `WlanEndpoint` read by the sorters. -/
structure WlanEndpoint where
  Endpoint : SortEndpoint
  Essid : List Nat
deriving DecidableEq, Repr

/-- `ByEssidSorter.Less`. -/
def byEssidLess (a b : WlanEndpoint) : Bool :=
  if a.Essid = b.Essid then bytesLt a.Endpoint.HwAddress b.Endpoint.HwAddress
  else bytesLt a.Essid b.Essid

/-- `ByWlanSeenSorter.Less`: `a.Endpoint.LastSeen.After(b.Endpoint.LastSeen)`. -/
def byWlanSeenLess (a b : WlanEndpoint) : Bool :=
  decide (b.Endpoint.LastSeen < a.Endpoint.LastSeen)

/-- `sort.Sort(ByEssidSorter(targets))`: a permutation ordered so that no
element is `Less` than a predecessor. -/
def sortByEssid (l : List WlanEndpoint) : List WlanEndpoint :=
  List.insertionSort (fun a b => byEssidLess b a = false) l

/-- `sort.Sort(ByWlanSeenSorter(targets))`. -/
def sortBySeen (l : List WlanEndpoint) : List WlanEndpoint :=
  List.insertionSort (fun a b => byWlanSeenLess b a = false) l

/-! ## Helper lemmas -/

lemma length_pos_iff_ne_empty (s : String) : 0 < s.length ↔ s ≠ "" := by
  cases s with
  | mk data =>
    show 0 < data.length ↔ _
    rw [List.length_pos]
    exact not_congr (Iff.symm String.ext_iff)

/-! ## Claim theorems -/

/-- C5: for every integer frequency, `frequency_to_channel` returns
`((freq_mhz - 2412) / 5) + 1` with (truncating) integer division when
`freq_mhz <= 2484`, and `0` otherwise; in particular `2412 ↦ 1`,
`2484 ↦ 15`, `2500 ↦ 0`.  (As a Lean function it has no side effects.) -/
theorem wlanMhzToChannel_matches_spec :
    (∀ freq : Int, freq ≤ 2484 →
      WlanMhzToChannel freq = Int.tdiv (freq - 2412) 5 + 1) ∧
    (∀ freq : Int, ¬freq ≤ 2484 → WlanMhzToChannel freq = 0) ∧
    WlanMhzToChannel 2412 = 1 ∧
    WlanMhzToChannel 2484 = 15 ∧
    WlanMhzToChannel 2500 = 0 := by
  refine ⟨fun freq h => ?_, fun freq h => ?_, by decide, by decide, by decide⟩
  · simp [WlanMhzToChannel, h]
  · simp [WlanMhzToChannel, h]

/-- Witness for C5 at a concrete frequency. -/
theorem wlanMhzToChannel_matches_spec_witness :
    (2437 : Int) ≤ 2484 ∧ WlanMhzToChannel 2437 = Int.tdiv (2437 - 2412) 5 + 1 :=
  ⟨by decide, wlanMhzToChannel_matches_spec.1 2437 (by decide)⟩

/-- C2: `send_deauth` dispatch.  Both filters configured: exactly the one
call `(bs, client)`.  Only the base-station filter: one call per
directory entry, with that entry's address as the client.  Base-station
filter not configured (client-only included): the "Base station is not
set." error, and no calls, hence zero injections. -/
theorem sendDeauth_dispatch (bs client : MAC) (targets : List MAC) :
    (bs ≠ [] → client ≠ [] →
      SendDeauth bs client targets = .ok [(bs, client)]) ∧
    (bs ≠ [] → client = [] →
      SendDeauth bs client targets = .ok (targets.map fun t => (bs, t)) ∧
      (targets.map fun t => (bs, t)).length = targets.length) ∧
    (bs = [] →
      SendDeauth bs client targets = .error "Base station is not set.") := by
  refine ⟨fun hb hc => ?_, fun hb hc => ?_, fun hb => ?_⟩
  · have hb' : bs.length > 0 := List.length_pos.mpr hb
    have hc' : client.length > 0 := List.length_pos.mpr hc
    simp [SendDeauth, hb', hc']
  · have hb' : bs.length > 0 := List.length_pos.mpr hb
    subst hc
    simp [SendDeauth, hb']
  · subst hb
    simp [SendDeauth]

/-- Witness for C2 covering the three dispatch cases at concrete inputs. -/
theorem sendDeauth_dispatch_witness :
    SendDeauth [1, 2, 3, 4, 5, 6] [7, 8, 9, 10, 11, 12] [[3, 3, 3, 3, 3, 3]] =
      .ok [([1, 2, 3, 4, 5, 6], [7, 8, 9, 10, 11, 12])] ∧
    SendDeauth [1, 2, 3, 4, 5, 6] [] [[3, 3, 3, 3, 3, 3], [4, 4, 4, 4, 4, 4]] =
      .ok [([1, 2, 3, 4, 5, 6], [3, 3, 3, 3, 3, 3]),
           ([1, 2, 3, 4, 5, 6], [4, 4, 4, 4, 4, 4])] ∧
    SendDeauth [] [7, 8, 9, 10, 11, 12] [[3, 3, 3, 3, 3, 3]] =
      .error "Base station is not set." :=
  ⟨(sendDeauth_dispatch _ _ _).1 (by decide) (by decide),
   by
    rw [((sendDeauth_dispatch [1, 2, 3, 4, 5, 6] []
      [[3, 3, 3, 3, 3, 3], [4, 4, 4, 4, 4, 4]]).2.1 (by decide) rfl).1]
    rfl,
   (sendDeauth_dispatch [] [7, 8, 9, 10, 11, 12] [[3, 3, 3, 3, 3, 3]]).2.2 rfl⟩

/-- C3: in base-station scan mode the directory is updated (an
`AddIfNew` call is emitted) iff the frame has a RadioTap layer, an
information element of kind SSID, a Dot11 layer, its first addressing
field equals ff:ff:ff:ff:ff:ff, and the SSID is non-empty; the call is
`add_if_new(ssid, Address3, is_base_station = true, channel-from-frequency)`;
every other frame yields no call. -/
theorem bsScan_accepts_iff (p : Packet) (c : AddIfNewCall) :
    BSScan broadcastMacBytes p = some c ↔
      ∃ radiotap dot11info dot11,
        p.radioTap = some radiotap ∧
        p.dot11info = some dot11info ∧
        dot11info.ID = .SSID ∧
        p.dot11 = some dot11 ∧
        dot11.Address1 = broadcastMacBytes ∧
        dot11info.Info ≠ "" ∧
        c = { ssid := dot11info.Info, mac := dot11.Address3,
              isBaseStation := true,
              channel := WlanMhzToChannel radiotap.ChannelFrequency } := by
  unfold BSScan
  cases hrt : p.radioTap with
  | none => simp
  | some radiotap =>
    cases hie : p.dot11info with
    | none => simp
    | some dot11info =>
      cases hd : p.dot11 with
      | none =>
        by_cases hid : dot11info.ID = .SSID <;> simp [hid]
      | some dot11 =>
        by_cases hid : dot11info.ID = .SSID
        · by_cases hb : dot11.Address1 = broadcastMacBytes
          · by_cases hs : (0 : Nat) < dot11info.Info.length
            · have hs' := (length_pos_iff_ne_empty dot11info.Info).mp hs
              simp [hid, hb, hs, hs']
              constructor
              · intro h
                exact h.symm
              · intro h
                exact h.symm
            · have hs' : ¬dot11info.Info ≠ "" := by
                intro hne
                exact hs ((length_pos_iff_ne_empty dot11info.Info).mpr hne)
              simp [hid, hb, hs, hs']
          · simp [hid, hb]
        · simp [hid]

/-- Witness for C3: a beacon-like frame is accepted with the documented
call. -/
theorem bsScan_accepts_iff_witness :
    BSScan broadcastMacBytes
      { radioTap := some { ChannelFrequency := 2437 },
        dot11info := some { ID := .SSID, Info := "net" },
        dot11 := some { Address1 := broadcastMacBytes,
                        Address2 := [1, 2, 3, 4, 5, 6],
                        Address3 := [9, 9, 9, 9, 9, 9],
                        MainType := .Mgmt, ToDS := false, FromDS := false } } =
      some { ssid := "net", mac := [9, 9, 9, 9, 9, 9], isBaseStation := true,
             channel := 6 } :=
  (bsScan_accepts_iff _ _).mpr
    ⟨_, _, _, rfl, rfl, rfl, rfl, rfl, by decide, by decide⟩

/-- C4: in client scan mode with base-station filter `bs` the directory
is updated iff the frame has RadioTap and Dot11 layers, main type Data,
to-DS set, from-DS clear, and first addressing field equal to `bs`; the
call is `add_if_new("", Address2, is_base_station = false,
channel-from-frequency)`; every other frame yields no call. -/
theorem clientScan_accepts_iff (bs : MAC) (p : Packet) (c : AddIfNewCall) :
    ClientScan bs p = some c ↔
      ∃ radiotap dot11,
        p.radioTap = some radiotap ∧
        p.dot11 = some dot11 ∧
        dot11.MainType = .Data ∧
        dot11.ToDS = true ∧
        dot11.FromDS = false ∧
        dot11.Address1 = bs ∧
        c = { ssid := "", mac := dot11.Address2, isBaseStation := false,
              channel := WlanMhzToChannel radiotap.ChannelFrequency } := by
  unfold ClientScan
  cases hrt : p.radioTap with
  | none => simp
  | some radiotap =>
    cases hd : p.dot11 with
    | none => simp
    | some dot11 =>
      by_cases hm : dot11.MainType = .Data
      · by_cases ht : dot11.ToDS = true
        · by_cases hf : dot11.FromDS = false
          · by_cases hb : dot11.Address1 = bs
            · simp [hm, ht, hf, hb]
              constructor
              · intro h
                exact h.symm
              · intro h
                exact h.symm
            · simp [hm, ht, hf, hb]
          · simp [hm, ht, hf]
        · simp [hm, ht]
      · simp [hm]

/-- Witness for C4: an uplink data frame through the filtered base
station is accepted with the documented call. -/
theorem clientScan_accepts_iff_witness :
    ClientScan [9, 9, 9, 9, 9, 9]
      { radioTap := some { ChannelFrequency := 2412 },
        dot11info := none,
        dot11 := some { Address1 := [9, 9, 9, 9, 9, 9],
                        Address2 := [7, 7, 7, 7, 7, 7],
                        Address3 := [9, 9, 9, 9, 9, 9],
                        MainType := .Data, ToDS := true, FromDS := false } } =
      some { ssid := "", mac := [7, 7, 7, 7, 7, 7], isBaseStation := false,
             channel := 1 } :=
  (clientScan_accepts_iff _ _ _).mpr
    ⟨_, _, rfl, rfl, rfl, rfl, rfl, rfl, by decide⟩

/-! ## C1: the 64-iteration deauth protocol -/

/-- One iteration's event block of a fully successful run: the
spoofed-client frame `{dest = bs, src = client, bssid = bs}` first, then
the spoofed-base-station frame `{dest = client, src = bs, bssid = bs}`,
each followed by a 2 ms sleep. -/
def deauthBlock (ap client : MAC) (seq : Nat) : List Event :=
  [Event.inject (buildDeauthPkt ap client ap
      .MgmtDeauthentication .Class2FromNonAuth seq) true,
   Event.sleepMs 2,
   Event.inject (buildDeauthPkt client ap ap
      .MgmtDeauthentication .Class2FromNonAuth seq) true,
   Event.sleepMs 2]

/-- The full trace of a successful `SendDeauthPacket` run. -/
def fullDeauthTrace (ap client : MAC) : List Event :=
  (List.range 64).flatMap (deauthBlock ap client)

lemma sendDeauthFrom_all_ok (inj : Frame → Bool) (ap client : MAC)
    (hall : ∀ f, inj f = true) :
    ∀ n seq, sendDeauthFrom inj ap client n seq =
      (List.range' seq n).flatMap (deauthBlock ap client) := by
  intro n
  induction n with
  | zero => intro seq; rfl
  | succ n ih =>
    intro seq
    rw [List.range'_succ]
    simp only [List.flatMap_cons]
    rw [← ih (seq + 1)]
    simp [sendDeauthFrom, hall, deauthBlock]

lemma injections_length_all_ok (inj : Frame → Bool) (ap client : MAC)
    (hall : ∀ f, inj f = true) :
    ∀ n seq, (injections (sendDeauthFrom inj ap client n seq)).length = 2 * n := by
  intro n
  induction n with
  | zero => intro seq; rfl
  | succ n ih =>
    intro seq
    simp only [sendDeauthFrom, hall, if_true]
    simp only [injections, List.filterMap_cons]
    have hlen := ih (seq + 1)
    simp only [injections] at hlen
    rw [List.length_cons, List.length_cons, hlen]
    omega

lemma sendDeauthFrom_fail_last (inj : Frame → Bool) (ap client : MAC) :
    ∀ n seq f, Event.inject f false ∈ sendDeauthFrom inj ap client n seq →
      (sendDeauthFrom inj ap client n seq).getLast? =
        some (Event.inject f false) := by
  intro n
  induction n with
  | zero => intro seq f h; simp [sendDeauthFrom] at h
  | succ n ih =>
    intro seq f h
    simp only [sendDeauthFrom] at h ⊢
    by_cases h1 : inj (buildDeauthPkt ap client ap
        .MgmtDeauthentication .Class2FromNonAuth seq) = true
    · rw [if_pos h1] at h ⊢
      by_cases h2 : inj (buildDeauthPkt client ap ap
          .MgmtDeauthentication .Class2FromNonAuth seq) = true
      · rw [if_pos h2] at h ⊢
        simp only [List.mem_cons] at h
        rcases h with h | h | h | h | h
        · cases h
        · cases h
        · cases h
        · cases h
        · have hlast := ih (seq + 1) f h
          rw [List.getLast?_cons_cons, List.getLast?_cons_cons,
            List.getLast?_cons_cons]
          cases hrest : sendDeauthFrom inj ap client n (seq + 1) with
          | nil => rw [hrest] at h; cases h
          | cons a l =>
            rw [hrest] at hlast
            rw [List.getLast?_cons_cons]
            exact hlast
      · rw [if_neg h2] at h ⊢
        simp only [List.mem_cons] at h
        rcases h with h | h | h | h
        · cases h
        · cases h
        · injection h with hf hok
          subst hf
          rfl
        · cases h
    · rw [if_neg h1] at h ⊢
      simp only [List.mem_cons] at h
      rcases h with h | h
      · injection h with hf hok
        subst hf
        rfl
      · cases h

/-- C1 counterexample: with every injection succeeding, the first frame
injected (sequence number 0) is addressed dest = base_station,
src = client — not dest = client, src = base_station as the claim's
step 1 states (the two concrete addresses differ). -/
theorem sendDeauthPacket_first_frame_counterexample :
    (injections (SendDeauthPacket (fun _ => true)
        [1, 2, 3, 4, 5, 6] [7, 8, 9, 10, 11, 12])).head? =
      some { Address1 := [1, 2, 3, 4, 5, 6], Address2 := [7, 8, 9, 10, 11, 12],
             Address3 := [1, 2, 3, 4, 5, 6],
             FrameType := .MgmtDeauthentication,
             Reason := .Class2FromNonAuth, SequenceNumber := 0 } ∧
    ([1, 2, 3, 4, 5, 6] : MAC) ≠ [7, 8, 9, 10, 11, 12] := by
  exact ⟨rfl, by decide⟩

/-- C1 (amended): when every injection succeeds the loop runs for
sequence numbers 0 through 63 (64 iterations) and injects exactly 128
frames, but within each iteration the frame addressed
{dest = base_station, src = client, bssid = base_station} comes first
and {dest = client, src = base_station, bssid = base_station} second,
each followed by a 2 ms wait; if any injection fails, it is the last
event of the trace — the remaining iterations are aborted immediately
with no retry. -/
theorem sendDeauthPacket_protocol (inj : Frame → Bool) (ap client : MAC) :
    ((∀ f, inj f = true) →
      SendDeauthPacket inj ap client = fullDeauthTrace ap client ∧
      (injections (SendDeauthPacket inj ap client)).length = 128) ∧
    (∀ f, Event.inject f false ∈ SendDeauthPacket inj ap client →
      (SendDeauthPacket inj ap client).getLast? =
        some (Event.inject f false)) := by
  constructor
  · intro hall
    constructor
    · rw [SendDeauthPacket, sendDeauthFrom_all_ok inj ap client hall 64 0,
        fullDeauthTrace, List.range_eq_range']
    · rw [SendDeauthPacket, injections_length_all_ok inj ap client hall 64 0]
  · intro f h
    exact sendDeauthFrom_fail_last inj ap client 64 0 f h

/-- Witness for C1 (amended) at concrete addresses with an
always-successful injection oracle. -/
theorem sendDeauthPacket_protocol_witness :
    (∀ f : Frame, (fun _ => true) f = true) ∧
    (injections (SendDeauthPacket (fun _ => true)
        [1, 2, 3, 4, 5, 6] [7, 8, 9, 10, 11, 12])).length = 128 :=
  ⟨fun _ => rfl,
   ((sendDeauthPacket_protocol (fun _ => true) _ _).1 (fun _ => rfl)).2⟩

/-! ## C6, C10: the base-station filter commands -/

/-- A concrete directory entry used by concrete instances. -/
def sampleEntry : Entry :=
  { Essid := "net", HwAddress := "0a:0b:0c:0d:0e:0f", IsBaseStation := true,
    Channel := 6, FirstSeen := 5, LastSeen := 9, Missed := false }

/-- C6: whatever the prior directory contents and prior filter value,
`wlan.recon set bs MAC` empties the directory (the argument is
universally quantified, so this holds in particular when the new address
equals the configured one), and `wlan.recon clear bs` empties the
directory and clears the base-station filter. -/
theorem setBS_clearBS_empty_directory (w : WDiscoveryState) (arg : List Char)
    (d : List Entry) (h : w.Targets = some d) :
    (setBSHandler arg w).1.Targets = some [] ∧
    (clearBSHandler w).Targets = some [] ∧
    (clearBSHandler w).BSTarget = [] := by
  refine ⟨?_, ?_, rfl⟩
  · unfold setBSHandler
    cases ParseMAC arg <;> simp [h, clearAll]
  · unfold clearBSHandler
    simp [h, clearAll]

/-- Witness for C6: a state with a non-empty directory and the filter
already set to 01:02:03:04:05:06, re-setting the very same address. -/
theorem setBS_clearBS_empty_directory_witness :
    ({ Targets := some [sampleEntry], ClientTarget := [],
       BSTarget := [1, 2, 3, 4, 5, 6], running := true } :
        WDiscoveryState).Targets = some [sampleEntry] ∧
    (setBSHandler "01:02:03:04:05:06".toList
      { Targets := some [sampleEntry], ClientTarget := [],
        BSTarget := [1, 2, 3, 4, 5, 6], running := true }).1.Targets =
      some [] :=
  ⟨rfl, (setBS_clearBS_empty_directory _ _ [sampleEntry] rfl).1⟩

/-- C10: the string aa:bb-cc:dd:ee:ff (mixed `:` and `-` separators) is
accepted by the `MAC48Validator` grammar but rejected by the address
parser, and on any parse failure the `set bs` command has already
cleared the directory and additionally resets the base-station filter to
the parser's empty failure result. -/
theorem setBS_not_atomic_on_malformed :
    (MAC48Matches "aa:bb-cc:dd:ee:ff".toList = true ∧
     ParseMAC "aa:bb-cc:dd:ee:ff".toList = none) ∧
    (∀ (w : WDiscoveryState) (arg : List Char) (d : List Entry),
      ParseMAC arg = none → w.Targets = some d →
      (setBSHandler arg w).2 = true ∧
      (setBSHandler arg w).1.Targets = some [] ∧
      (setBSHandler arg w).1.BSTarget = []) := by
  refine ⟨⟨by decide, by decide⟩, fun w arg d hp h => ?_⟩
  unfold setBSHandler
  rw [hp]
  simp [h, clearAll]

/-- Witness for C10: the mixed-separator argument applied to a state
with a non-empty directory and a previously configured filter loses
both. -/
theorem setBS_not_atomic_on_malformed_witness :
    (setBSHandler "aa:bb-cc:dd:ee:ff".toList
      { Targets := some [sampleEntry], ClientTarget := [],
        BSTarget := [1, 2, 3, 4, 5, 6], running := true }).2 = true ∧
    (setBSHandler "aa:bb-cc:dd:ee:ff".toList
      { Targets := some [sampleEntry], ClientTarget := [],
        BSTarget := [1, 2, 3, 4, 5, 6], running := true }).1.Targets =
      some [] ∧
    (setBSHandler "aa:bb-cc:dd:ee:ff".toList
      { Targets := some [sampleEntry], ClientTarget := [],
        BSTarget := [1, 2, 3, 4, 5, 6], running := true }).1.BSTarget = [] :=
  setBS_not_atomic_on_malformed.2 _ _ [sampleEntry]
    setBS_not_atomic_on_malformed.1.2 rfl

/-! ## C7: destruction of directory entries -/

lemma any_addIfNew_of_any (ssid addr' : String) (isBS : Bool) (ch : Int)
    (now : Nat) (d : List Entry) (a : String)
    (h : (d.any fun e => e.HwAddress = a) = true) :
    ((addIfNew ssid addr' isBS ch now d).any fun e => e.HwAddress = a) =
      true := by
  unfold addIfNew
  split
  · simp only [List.any_eq_true, decide_eq_true_eq] at h ⊢
    obtain ⟨e, he, heq⟩ := h
    refine ⟨if e.HwAddress = addr' then { e with LastSeen := now, Channel := ch }
            else e, List.mem_map_of_mem _ he, ?_⟩
    by_cases hcase : e.HwAddress = addr'
    · rw [if_pos hcase]
      exact heq
    · rw [if_neg hcase]
      exact heq
  · simp only [List.any_eq_true, decide_eq_true_eq] at h ⊢
    obtain ⟨e, he, heq⟩ := h
    exact ⟨e, List.mem_append_left _ he, heq⟩

/-- C7 counterexample: `start` is not a filter-clear operation, yet it
destroys an existing directory entry (`Configure` re-creates the
directory), refuting "entries are destroyed only by an explicit
filter-clear operation". -/
theorem directory_cleared_by_start_counterexample :
    isFilterClear Op.start = false ∧
    hasAddr { Targets := some [sampleEntry], ClientTarget := [],
              BSTarget := [], running := false } "0a:0b:0c:0d:0e:0f" ∧
    ¬hasAddr (step { Targets := some [sampleEntry], ClientTarget := [],
                     BSTarget := [], running := false } Op.start)
        "0a:0b:0c:0d:0e:0f" := by
  refine ⟨rfl, ⟨[sampleEntry], rfl, by decide⟩, ?_⟩
  rintro ⟨d, hd, hany⟩
  simp only [step, if_neg (Bool.false_ne_true)] at hd
  cases hd
  simp at hany

/-- C7 (amended): directory entries are destroyed only by an explicit
filter-clear operation or by `start` (whose `Configure` re-creates the
directory); every other operation (stop, frame classification, attack
dispatch, show, client-filter commands) preserves every entry's
presence, and no entry is ever individually expired. -/
theorem entries_destroyed_only_by_filter_clear_or_start
    (w : WDiscoveryState) (op : Op) (addr : String)
    (hfc : isFilterClear op = false) (hs : op ≠ Op.start)
    (h : hasAddr w addr) : hasAddr (step w op) addr := by
  obtain ⟨tg, ct, bt, rn⟩ := w
  obtain ⟨d, hd, hany⟩ := h
  replace hd : tg = some d := hd
  subst hd
  cases op with
  | start => exact absurd rfl hs
  | stop => exact ⟨d, rfl, hany⟩
  | frame p now =>
    cases rn with
    | false => exact ⟨d, rfl, hany⟩
    | true =>
      by_cases hb : List.length bt > 0
      · cases hcs : ClientScan bt p with
        | none => exact ⟨d, by simp [step, hb, hcs], hany⟩
        | some c =>
          exact ⟨applyCall c now d, by simp [step, hb, hcs],
            any_addIfNew_of_any _ _ _ _ _ d addr hany⟩
      · cases hcs : BSScan broadcastMacBytes p with
        | none => exact ⟨d, by simp [step, hb, hcs], hany⟩
        | some c =>
          exact ⟨applyCall c now d, by simp [step, hb, hcs],
            any_addIfNew_of_any _ _ _ _ _ d addr hany⟩
  | deauth => exact ⟨d, rfl, hany⟩
  | showCmd => exact ⟨d, rfl, hany⟩
  | setClient arg =>
    cases hpm : ParseMAC arg with
    | none => exact ⟨d, by simp [step, setClientHandler, hpm], hany⟩
    | some mac => exact ⟨d, by simp [step, setClientHandler, hpm], hany⟩
  | clearClient => exact ⟨d, rfl, hany⟩
  | setBS arg => exact Bool.noConfusion hfc
  | clearBS => exact Bool.noConfusion hfc

/-- Witness for C7 (amended): `stop` preserves the sample entry. -/
theorem entries_destroyed_only_by_filter_clear_or_start_witness :
    isFilterClear Op.stop = false ∧
    hasAddr (step { Targets := some [sampleEntry], ClientTarget := [],
                    BSTarget := [], running := true } Op.stop)
      "0a:0b:0c:0d:0e:0f" :=
  ⟨rfl, entries_destroyed_only_by_filter_clear_or_start _ Op.stop _
    rfl (fun h => Op.noConfusion h) ⟨[sampleEntry], rfl, by decide⟩⟩

/-! ## C8: `add_if_new` timestamp and size invariants -/

/-- The entry currently stored for `addr`. -/
def lookupAddr (addr : String) (d : List Entry) : Option Entry :=
  d.find? fun e => e.HwAddress = addr

/-- The per-call arguments of one `add_if_new` call for a fixed address:
SSID, base-station flag, channel, and the call's wall-clock instant. -/
structure Call where
  ssid : String
  isBaseStation : Bool
  channel : Int
  now : Nat
deriving DecidableEq, Repr

/-- A sequence of `add_if_new` calls carrying the same address. -/
def runCalls (addr : String) (d : List Entry) : List Call → List Entry
  | [] => d
  | c :: cs => runCalls addr (addIfNew c.ssid addr c.isBaseStation c.channel c.now d) cs

/-- Timestamp of the most recent call, `dflt` when there is none. -/
def lastNow (cs : List Call) (dflt : Nat) : Nat :=
  match cs.getLast? with
  | some c => c.now
  | none => dflt

lemma getLast?_cons_ne_none {α : Type} (a : α) (l : List α) :
    (a :: l).getLast? ≠ none := by
  induction l generalizing a with
  | nil => simp [List.getLast?]
  | cons b l ih => rw [List.getLast?_cons_cons]; exact ih b

lemma lastNow_cons (c : Call) (cs : List Call) (dflt : Nat) :
    lastNow (c :: cs) dflt = lastNow cs c.now := by
  unfold lastNow
  cases cs with
  | nil => rfl
  | cons c2 cs2 =>
    rw [List.getLast?_cons_cons]
    cases hg : (c2 :: cs2).getLast? with
    | some c3 => rfl
    | none => exact absurd hg (getLast?_cons_ne_none c2 cs2)

lemma lookup_addIfNew_present (s addr : String) (b : Bool) (ch : Int)
    (now : Nat) (d : List Entry)
    (h : (d.any fun e => e.HwAddress = addr) = true) :
    lookupAddr addr (addIfNew s addr b ch now d) =
      (lookupAddr addr d).map fun e =>
        { e with LastSeen := now, Channel := ch } := by
  unfold addIfNew
  rw [if_pos h]
  unfold lookupAddr
  clear h
  induction d with
  | nil => rfl
  | cons e d ih =>
    simp only [List.map_cons]
    by_cases hcase : e.HwAddress = addr
    · rw [if_pos hcase,
        List.find?_cons_of_pos _ (by simp [hcase]),
        List.find?_cons_of_pos _ (by simp [hcase])]
      rfl
    · rw [if_neg hcase,
        List.find?_cons_of_neg _ (by simp [hcase]),
        List.find?_cons_of_neg _ (by simp [hcase])]
      exact ih

lemma lookup_addIfNew_absent (s addr : String) (b : Bool) (ch : Int)
    (now : Nat) (d : List Entry)
    (h : (d.any fun e => e.HwAddress = addr) = false) :
    lookupAddr addr (addIfNew s addr b ch now d) =
      some { Essid := s, HwAddress := addr, IsBaseStation := b,
             Channel := ch, FirstSeen := now, LastSeen := now,
             Missed := false } := by
  unfold addIfNew
  rw [if_neg (by rw [h]; exact Bool.false_ne_true)]
  unfold lookupAddr
  induction d with
  | nil => rw [List.nil_append, List.find?_cons_of_pos _ (by simp)]
  | cons e d ih =>
    simp only [List.any_cons, Bool.or_eq_false_iff] at h
    rw [List.cons_append, List.find?_cons_of_neg _ (by simp [h.1])]
    exact ih h.2

lemma any_of_lookup (addr : String) (d : List Entry) (e : Entry)
    (h : lookupAddr addr d = some e) :
    (d.any fun e => e.HwAddress = addr) = true := by
  unfold lookupAddr at h
  have hmem : e ∈ d := List.mem_of_find?_eq_some h
  have hp := List.find?_some h
  rw [List.any_eq_true]
  exact ⟨e, hmem, hp⟩

lemma runCalls_lookup (addr : String) :
    ∀ (cs : List Call) (d : List Entry) (e : Entry),
      lookupAddr addr d = some e →
      ∃ e', lookupAddr addr (runCalls addr d cs) = some e' ∧
        e'.FirstSeen = e.FirstSeen ∧
        e'.LastSeen = lastNow cs e.LastSeen := by
  intro cs
  induction cs with
  | nil => exact fun d e h => ⟨e, h, rfl, rfl⟩
  | cons c cs ih =>
    intro d e h
    have hany := any_of_lookup addr d e h
    have h1 : lookupAddr addr
        (addIfNew c.ssid addr c.isBaseStation c.channel c.now d) =
          some { e with LastSeen := c.now, Channel := c.channel } := by
      rw [lookup_addIfNew_present _ _ _ _ _ _ hany, h]
      rfl
    obtain ⟨e', he', hf, hl⟩ := ih _ _ h1
    exact ⟨e', he', hf, by rw [hl, lastNow_cons]⟩

/-- C8: for every sequence of `add_if_new` calls with the same address:
the stored entry's first-seen is the first call's instant and never
changes afterwards; last-seen equals the most recent call's instant (so
it never decreases while call instants do not); a call with an unseen
address grows the directory by exactly one; a call with a seen address
leaves the size unchanged. -/
theorem addIfNew_timestamps_and_size :
    (∀ (s addr : String) (b : Bool) (ch : Int) (now : Nat) (d : List Entry),
      (d.any fun e => e.HwAddress = addr) = true →
        (addIfNew s addr b ch now d).length = d.length) ∧
    (∀ (s addr : String) (b : Bool) (ch : Int) (now : Nat) (d : List Entry),
      (d.any fun e => e.HwAddress = addr) = false →
        (addIfNew s addr b ch now d).length = d.length + 1) ∧
    (∀ (s addr : String) (b : Bool) (ch : Int) (now : Nat) (d : List Entry)
        (e e' : Entry),
      lookupAddr addr d = some e →
      lookupAddr addr (addIfNew s addr b ch now d) = some e' →
        e'.FirstSeen = e.FirstSeen ∧ e'.LastSeen = now ∧
        (e.LastSeen ≤ now → e.LastSeen ≤ e'.LastSeen)) ∧
    (∀ (addr : String) (d0 : List Entry) (c : Call) (cs : List Call),
      (d0.any fun e => e.HwAddress = addr) = false →
      ∃ e, lookupAddr addr (runCalls addr d0 (c :: cs)) = some e ∧
        e.FirstSeen = c.now ∧
        e.LastSeen = lastNow (c :: cs) 0) := by
  refine ⟨fun s addr b ch now d h => ?_, fun s addr b ch now d h => ?_,
    fun s addr b ch now d e e' h h' => ?_, fun addr d0 c cs h => ?_⟩
  · unfold addIfNew
    rw [if_pos h, List.length_map]
  · unfold addIfNew
    rw [if_neg (by rw [h]; exact Bool.false_ne_true), List.length_append]
    rfl
  · rw [lookup_addIfNew_present _ _ _ _ _ _ (any_of_lookup _ _ _ h), h] at h'
    injection h' with h'
    refine ⟨by rw [← h'], by rw [← h'], fun hle => by rw [← h']; exact hle⟩
  · have h1 : lookupAddr addr
        (addIfNew c.ssid addr c.isBaseStation c.channel c.now d0) =
          some { Essid := c.ssid, HwAddress := addr,
                 IsBaseStation := c.isBaseStation, Channel := c.channel,
                 FirstSeen := c.now, LastSeen := c.now, Missed := false } :=
      lookup_addIfNew_absent _ _ _ _ _ _ h
    obtain ⟨e', he', hf, hl⟩ := runCalls_lookup addr cs _ _ h1
    exact ⟨e', he', hf, by rw [hl, lastNow_cons]⟩

/-- Witness for C8: two calls with the same address starting from an
empty directory — first-seen stays at the first call's instant 3,
last-seen ends at the second call's instant 7. -/
theorem addIfNew_timestamps_and_size_witness :
    (([] : List Entry).any fun e => e.HwAddress = "aa") = false ∧
    ∃ e, lookupAddr "aa"
        (runCalls "aa" []
          [{ ssid := "net", isBaseStation := true, channel := 1, now := 3 },
           { ssid := "net", isBaseStation := true, channel := 6, now := 7 }]) =
        some e ∧
      e.FirstSeen = 3 ∧
      e.LastSeen = lastNow
        [{ ssid := "net", isBaseStation := true, channel := 1, now := 3 },
         { ssid := "net", isBaseStation := true, channel := 6, now := 7 }] 0 :=
  ⟨rfl, addIfNew_timestamps_and_size.2.2.2 "aa" [] _ _ rfl⟩

/-! ## C9: order lemmas for the sorters -/

lemma bytesLt_irrefl : ∀ a, bytesLt a a = false := by
  intro a
  induction a with
  | nil => rfl
  | cons x xs ih =>
    simp only [bytesLt]
    rw [if_neg (by omega), if_neg (by omega)]
    exact ih

lemma bytesLt_asymm : ∀ a b, bytesLt a b = true → bytesLt b a = false := by
  intro a
  induction a with
  | nil =>
    intro b h
    cases b with
    | nil => exact Bool.noConfusion h
    | cons y ys => rfl
  | cons x xs ih =>
    intro b h
    cases b with
    | nil => exact Bool.noConfusion h
    | cons y ys =>
      simp only [bytesLt] at h ⊢
      by_cases hxy : x < y
      · rw [if_neg (by omega), if_pos hxy]
      · rw [if_neg hxy] at h
        by_cases hyx : y < x
        · rw [if_pos hyx] at h
          exact Bool.noConfusion h
        · rw [if_neg hyx] at h
          rw [if_neg hyx, if_neg hxy]
          exact ih ys h

lemma bytesLt_trans : ∀ a b c,
    bytesLt a b = true → bytesLt b c = true → bytesLt a c = true := by
  intro a
  induction a with
  | nil =>
    intro b c hab hbc
    cases b with
    | nil => exact Bool.noConfusion hab
    | cons y ys =>
      cases c with
      | nil => exact Bool.noConfusion hbc
      | cons z zs => rfl
  | cons x xs ih =>
    intro b c hab hbc
    cases b with
    | nil => exact Bool.noConfusion hab
    | cons y ys =>
      cases c with
      | nil => exact Bool.noConfusion hbc
      | cons z zs =>
        simp only [bytesLt] at hab hbc ⊢
        by_cases hxy : x < y
        · by_cases hyz : y < z
          · rw [if_pos (by omega : x < z)]
          · rw [if_neg hyz] at hbc
            by_cases hzy : z < y
            · rw [if_pos hzy] at hbc
              exact Bool.noConfusion hbc
            · rw [if_pos (by omega : x < z)]
        · rw [if_neg hxy] at hab
          by_cases hyx : y < x
          · rw [if_pos hyx] at hab
            exact Bool.noConfusion hab
          · rw [if_neg hyx] at hab
            by_cases hyz : y < z
            · rw [if_pos (by omega : x < z)]
            · rw [if_neg hyz] at hbc
              by_cases hzy : z < y
              · rw [if_pos hzy] at hbc
                exact Bool.noConfusion hbc
              · rw [if_neg hzy] at hbc
                rw [if_neg (by omega : ¬x < z), if_neg (by omega : ¬z < x)]
                exact ih ys zs hab hbc

lemma bytesLt_conn : ∀ a b,
    bytesLt a b = false → bytesLt b a = false → a = b := by
  intro a
  induction a with
  | nil =>
    intro b h1 _
    cases b with
    | nil => rfl
    | cons y ys => exact Bool.noConfusion h1
  | cons x xs ih =>
    intro b h1 h2
    cases b with
    | nil => exact Bool.noConfusion h2
    | cons y ys =>
      simp only [bytesLt] at h1 h2
      by_cases hxy : x < y
      · rw [if_pos hxy] at h1
        exact Bool.noConfusion h1
      · by_cases hyx : y < x
        · rw [if_pos hyx] at h2
          exact Bool.noConfusion h2
        · rw [if_neg hxy, if_neg hyx] at h1
          have hxyeq : x = y := by omega
          rw [hxyeq, ih ys h1 (by rw [if_neg hyx, if_neg hxy] at h2; exact h2)]

lemma byEssidLess_asymm (a b : WlanEndpoint) :
    byEssidLess a b = true → byEssidLess b a = false := by
  unfold byEssidLess
  by_cases hE : a.Essid = b.Essid
  · rw [if_pos hE, if_pos hE.symm]
    exact bytesLt_asymm _ _
  · rw [if_neg hE, if_neg (fun h => hE h.symm)]
    exact bytesLt_asymm _ _

lemma byEssidLess_not_both_false (a b : WlanEndpoint) :
    byEssidLess a b = false → byEssidLess b a = false →
    a.Essid = b.Essid ∧ a.Endpoint.HwAddress = b.Endpoint.HwAddress := by
  unfold byEssidLess
  by_cases hE : a.Essid = b.Essid
  · rw [if_pos hE, if_pos hE.symm]
    intro h1 h2
    exact ⟨hE, bytesLt_conn _ _ h1 h2⟩
  · rw [if_neg hE, if_neg (fun h => hE h.symm)]
    intro h1 h2
    exact absurd (bytesLt_conn _ _ h1 h2) hE

lemma byEssidLess_congr_left (a b c : WlanEndpoint)
    (hE : a.Essid = b.Essid) (hH : a.Endpoint.HwAddress = b.Endpoint.HwAddress) :
    byEssidLess a c = byEssidLess b c := by
  unfold byEssidLess
  rw [hE, hH]

lemma byEssidLess_trans (a b c : WlanEndpoint) :
    byEssidLess a b = true → byEssidLess b c = true →
    byEssidLess a c = true := by
  unfold byEssidLess
  by_cases hab : a.Essid = b.Essid <;> by_cases hbc : b.Essid = c.Essid
  · rw [if_pos hab, if_pos hbc, if_pos (hab.trans hbc)]
    exact bytesLt_trans _ _ _
  · rw [if_pos hab, if_neg hbc, if_neg (by rw [hab]; exact hbc)]
    intro _ h2
    rw [hab]
    exact h2
  · rw [if_neg hab, if_pos hbc, if_neg (by rw [← hbc]; exact hab)]
    intro h1 _
    rw [← hbc]
    exact h1
  · rw [if_neg hab, if_neg hbc]
    by_cases hac : a.Essid = c.Essid
    · rw [if_pos hac]
      intro h1 h2
      have h3 := bytesLt_trans _ _ _ h1 h2
      rw [hac, bytesLt_irrefl] at h3
      exact Bool.noConfusion h3
    · rw [if_neg hac]
      exact bytesLt_trans _ _ _

lemma essid_claim_of_le (a b : WlanEndpoint) (h : byEssidLess b a = false) :
    (a.Essid = b.Essid →
      bytesLt b.Endpoint.HwAddress a.Endpoint.HwAddress = false) ∧
    (a.Essid ≠ b.Essid → bytesLt a.Essid b.Essid = true) := by
  unfold byEssidLess at h
  constructor
  · intro hEq
    rw [if_pos hEq.symm] at h
    exact h
  · intro hNe
    rw [if_neg (fun hh => hNe hh.symm)] at h
    cases h' : bytesLt a.Essid b.Essid with
    | true => rfl
    | false => exact absurd (bytesLt_conn _ _ h' h) hNe

/-- C9: sorting by SSID yields a permutation in which entries with
differing SSID appear in ascending SSID order and entries with equal
SSID in ascending hardware-address order; sorting by last-seen yields a
permutation in descending last-seen order — strictly descending (most
recent first) whenever the timestamps are pairwise distinct. -/
theorem sorters_order (l : List WlanEndpoint) :
    ((sortByEssid l).Sorted fun a b =>
      (a.Essid = b.Essid →
        bytesLt b.Endpoint.HwAddress a.Endpoint.HwAddress = false) ∧
      (a.Essid ≠ b.Essid → bytesLt a.Essid b.Essid = true)) ∧
    (sortByEssid l).Perm l ∧
    ((sortBySeen l).Sorted fun a b =>
      b.Endpoint.LastSeen ≤ a.Endpoint.LastSeen) ∧
    (sortBySeen l).Perm l ∧
    ((l.Pairwise fun a b => a.Endpoint.LastSeen ≠ b.Endpoint.LastSeen) →
      (sortBySeen l).Sorted fun a b =>
        b.Endpoint.LastSeen < a.Endpoint.LastSeen) := by
  haveI instTotE : IsTotal WlanEndpoint (fun a b => byEssidLess b a = false) := by
    constructor
    intro a b
    cases h : byEssidLess b a with
    | false => exact Or.inl rfl
    | true => exact Or.inr (byEssidLess_asymm _ _ h)
  haveI instTransE : IsTrans WlanEndpoint (fun a b => byEssidLess b a = false) := by
    constructor
    intro a b c h1 h2
    cases h3 : byEssidLess b c with
    | false =>
      obtain ⟨hE, hH⟩ := byEssidLess_not_both_false c b h2 h3
      rw [byEssidLess_congr_left c b a hE hH]
      exact h1
    | true =>
      cases h4 : byEssidLess c a with
      | false => rfl
      | true =>
        rw [byEssidLess_trans b c a h3 h4] at h1
        exact Bool.noConfusion h1
  haveI instTotS : IsTotal WlanEndpoint (fun a b => byWlanSeenLess b a = false) := by
    constructor
    intro a b
    simp only [byWlanSeenLess, decide_eq_false_iff_not, not_lt]
    omega
  haveI instTransS : IsTrans WlanEndpoint (fun a b => byWlanSeenLess b a = false) := by
    constructor
    intro a b c
    simp only [byWlanSeenLess, decide_eq_false_iff_not, not_lt]
    omega
  have hsE := List.sorted_insertionSort (fun a b => byEssidLess b a = false) l
  have hsS := List.sorted_insertionSort (fun a b => byWlanSeenLess b a = false) l
  have hpE := List.perm_insertionSort (fun a b => byEssidLess b a = false) l
  have hpS := List.perm_insertionSort (fun a b => byWlanSeenLess b a = false) l
  have hsSle : (sortBySeen l).Sorted fun a b =>
      b.Endpoint.LastSeen ≤ a.Endpoint.LastSeen := by
    refine List.Pairwise.imp ?_ hsS
    intro a b h
    simp only [byWlanSeenLess, decide_eq_false_iff_not, not_lt] at h
    exact h
  refine ⟨List.Pairwise.imp (fun h => essid_claim_of_le _ _ h) hsE,
    hpE, hsSle, hpS, fun hne => ?_⟩
  have hne' : (sortBySeen l).Pairwise fun a b =>
      a.Endpoint.LastSeen ≠ b.Endpoint.LastSeen :=
    (hpS.pairwise_iff fun h => h.symm).mpr hne
  refine List.Pairwise.imp ?_ (hsSle.and hne')
  intro a b h
  omega

/-- Witness for C9: a two-entry list with distinct timestamps is sorted
strictly descending by last-seen. -/
theorem sorters_order_witness :
    (([{ Endpoint := { HwAddress := [1], LastSeen := 5 }, Essid := [110] },
       { Endpoint := { HwAddress := [2], LastSeen := 9 }, Essid := [97] }] :
        List WlanEndpoint).Pairwise fun a b =>
          a.Endpoint.LastSeen ≠ b.Endpoint.LastSeen) ∧
    ((sortBySeen
      [{ Endpoint := { HwAddress := [1], LastSeen := 5 }, Essid := [110] },
       { Endpoint := { HwAddress := [2], LastSeen := 9 }, Essid := [97] }]).Sorted
        fun a b => b.Endpoint.LastSeen < a.Endpoint.LastSeen) :=
  ⟨by decide,
   (sorters_order
     [{ Endpoint := { HwAddress := [1], LastSeen := 5 }, Essid := [110] },
      { Endpoint := { HwAddress := [2], LastSeen := 9 }, Essid := [97] }]).2.2.2.2
     (by decide)⟩

end WlanRecon
